import Mathlib

/-!
Shallow embedding of the reviewer-acquisition subsystem of the
`cr-cab-reviewers` GitHub action (`src/index.js`): the urgency classifier
`detectUrgency`, the resilient pool fetcher `fetchReviewers`, the
deterministic selector `selectRandomReviewer`, and the author-exclusion
filter from `run`.  JavaScript strings are modelled as Lean `String`
(`charCodeAt` as `Char.toNat`; the action's inputs are ASCII, where UTF-16
code units and code points agree), JavaScript numbers in the hash loop as
`Int` with explicit 32-bit wraparound, and the asynchronous fetch loop as a
pure function of the sequence of network outcomes, recording the requests
made, the sleeps performed, the diagnostics logged and the final result.
-/

/-- Whitespace as ECMAScript `\s` / `String.prototype.trim` classify it
(WhiteSpace plus LineTerminator code points). -/
def isJsSpace (c : Char) : Bool :=
  let n := c.toNat
  n == 9 || n == 10 || n == 11 || n == 12 || n == 13 || n == 32 || n == 160 ||
  n == 0x1680 || (0x2000 ≤ n && n ≤ 0x200a) || n == 0x2028 || n == 0x2029 ||
  n == 0x202f || n == 0x205f || n == 0x3000 || n == 0xfeff

/-- Model of `line.trim()`: strip JS whitespace from both ends. -/
def jsTrim (s : String) : String :=
  ⟨((s.data.dropWhile isJsSpace).reverse.dropWhile isJsSpace).reverse⟩

/-- Model of `prBody.split('\n')` on the character list: split at every
line feed, keeping empty pieces exactly as JavaScript does. -/
def splitOnLF : List Char → List (List Char)
  | [] => [[]]
  | c :: rest =>
    if c = '\n' then [] :: splitOnLF rest
    else
      match splitOnLF rest with
      | [] => [[c]]
      | l :: ls => (c :: l) :: ls

/-- Helper for substring search: the pattern matches at the head of the
text. -/
def leadsWith : List Char → List Char → Bool
  | [], _ => true
  | _ :: _, [] => false
  | a :: as, b :: bs => a == b && leadsWith as bs

/-- Substring search: the pattern occurs somewhere in the text.  Models
JavaScript `haystack.includes(pattern)` (and an unanchored `RegExp.test`
for a literal pattern). -/
def occursIn (pat : List Char) : List Char → Bool
  | [] => leadsWith pat []
  | c :: rest => leadsWith pat (c :: rest) || occursIn pat rest

/-- Model of `haystack.includes(needle)`. -/
def strIncludes (haystack needle : String) : Bool :=
  occursIn needle.data haystack.data

/-- Model of `s.toLowerCase()` on ASCII text (the labels and identities the
action handles), written so the kernel can evaluate it. -/
def jsToLower (s : String) : String := ⟨s.data.map Char.toLower⟩

/-- Decimal digit character for one digit (any other input yields a sentinel
that never arises in a rendered number). -/
def digitChar (n : Nat) : Char :=
  match n with
  | 0 => '0' | 1 => '1' | 2 => '2' | 3 => '3' | 4 => '4'
  | 5 => '5' | 6 => '6' | 7 => '7' | 8 => '8' | 9 => '9'
  | _ => '*'

/-- Decimal rendering of a natural number, fuelled (fuel `n + 1` always
suffices); models JavaScript `String(n)` for integral values. -/
def natDecimalAux : Nat → Nat → List Char
  | 0, _ => []
  | fuel + 1, n =>
    if n < 10 then [digitChar n]
    else natDecimalAux fuel (n / 10) ++ [digitChar (n % 10)]

/-- Decimal string of a natural number. -/
def natDecimal (n : Nat) : String := ⟨natDecimalAux (n + 1) n⟩

/-- Decimal string of an integer, with a leading minus sign when negative:
models JavaScript `String(n)` for safe integers. -/
def intDecimal (n : Int) : String :=
  if n < 0 then "-" ++ natDecimal n.natAbs else natDecimal n.natAbs

/-- Value of a list of decimal digit characters. -/
def digitsVal (ds : List Char) : Nat :=
  ds.foldl (fun a c => a * 10 + (c.toNat - 48)) 0

/-- Model of JavaScript `parseInt(s, 10)`: skip leading whitespace, read an
optional sign and then the longest run of decimal digits; `none` models the
`NaN` result when no digit is found. -/
def jsParseInt (s : String) : Option Int :=
  let cs := s.data.dropWhile isJsSpace
  let signed : Int × List Char :=
    match cs with
    | '-' :: r => (-1, r)
    | '+' :: r => (1, r)
    | _ => (1, cs)
  let ds := signed.2.takeWhile Char.isDigit
  if ds = [] then none else some (signed.1 * digitsVal ds)

/-- ToInt32: reduce an integer to the 32-bit two's-complement range, as the
JavaScript `|`, `&` and `<<` operators do. -/
def toInt32 (n : Int) : Int :=
  (n + 2147483648) % 4294967296 - 2147483648

/-- One step of the selector's hash loop, exactly as the source computes
it: `hash = ((hash << 5) - hash) + charCode; hash = hash & hash`.  On an
int32-ranged accumulator `hash << 5` is `ToInt32(hash * 32)` and the final
`& hash` is another ToInt32. -/
def hashStep (h : Int) (c : Nat) : Int :=
  toInt32 (toInt32 (h * 32) - h + c)

/-- The hash the selector derives from the seed string (source lines
391-396). -/
def jsHashString (s : String) : Int :=
  s.data.foldl (fun h c => hashStep h c.toNat) 0

/-- Modelled from the spec: one hash step written as the specification
words it, `hash = (hash * 31 + charCode)` reduced with 32-bit signed
wraparound. -/
def hashStepSpec (h : Int) (c : Nat) : Int :=
  toInt32 (h * 31 + c)

/-- Modelled from the spec: the hash of the seed string accumulated with
`hashStepSpec`. -/
def specHashString (s : String) : Int :=
  s.data.foldl (fun h c => hashStepSpec h c.toNat) 0

/-- JSON values, as `response.json()` yields them. -/
inductive Json where
  | null : Json
  | bool (b : Bool) : Json
  | num (n : Int) : Json
  | str (s : String) : Json
  | arr (xs : List Json) : Json
  | obj (fields : List (String × Json)) : Json

/-- JavaScript truthiness of a JSON value. -/
def jsTruthy : Json → Bool
  | .null => false
  | .bool b => b
  | .num n => n != 0
  | .str s => s != ""
  | .arr _ => true
  | .obj _ => true

/-- Property access `v.key` on a JSON value: `none` models `undefined`
(also for primitives, whose boxed forms carry no such property); access on
`null` is handled separately by the caller since it throws. -/
def jsField : Json → String → Option Json
  | .obj fields, key => fields.lookup key
  | _, _ => none

mutual

/-- Model of `JSON.stringify(v)` (string escapes beyond the quote are not
modelled; the action only ever renders it into an error message). -/
def jsonStringify : Json → String
  | .null => "null"
  | .bool true => "true"
  | .bool false => "false"
  | .num n => intDecimal n
  | .str s => "\"" ++ s ++ "\""
  | .arr xs => "[" ++ jsonStringifyList xs ++ "]"
  | .obj fs => "\x7b" ++ jsonStringifyFields fs ++ "\x7d"

/-- Comma-joined rendering of an array's elements. -/
def jsonStringifyList : List Json → String
  | [] => ""
  | [x] => jsonStringify x
  | x :: y :: xs => jsonStringify x ++ "," ++ jsonStringifyList (y :: xs)

/-- Comma-joined rendering of an object's fields. -/
def jsonStringifyFields : List (String × Json) → String
  | [] => ""
  | [(k, v)] => "\"" ++ k ++ "\":" ++ jsonStringify v
  | (k, v) :: p :: fs =>
      "\"" ++ k ++ "\":" ++ jsonStringify v ++ "," ++ jsonStringifyFields (p :: fs)

end

/-- After a bullet character: skip `\s*`, then require `[x]` or `[X]`
(the regex tail `.*` always matches).  Greediness is exact here because
`[` is not whitespace. -/
def boxTest : List Char → Bool
  | a :: c :: b :: _ => a == '[' && (c == 'x' || c == 'X') && b == ']'
  | _ => false

/-- After skipping `\s*`, require the three-character checkbox `[x]`/`[X]`. -/
def afterBullet (cs : List Char) : Bool :=
  boxTest (cs.dropWhile isJsSpace)

/-- The regex `[-*]\s*\[[xX]\].*` matches at the head of the text. -/
def checkedBoxAt : List Char → Bool
  | [] => false
  | b :: rest => (b == '-' || b == '*') && afterBullet rest

/-- Unanchored search for the checked-checkbox pattern, which is what
`/[-*]\s*\[[xX]\].*/.test(trimmed)` performs (the regex has no `^`
anchor, so it may match anywhere in the line). -/
def hasCheckedBox : List Char → Bool
  | [] => false
  | c :: rest => checkedBoxAt (c :: rest) || hasCheckedBox rest

/-- The urgency classifier, source lines 251-283.  Scans the description
line by line, marks which tiers appear on lines the checkbox regex
accepts, resolves by priority p0 > p1 > p2 and falls back to `"p2"`. -/
def detectUrgency (prBody checkboxP0 checkboxP1 checkboxP2 : String) : String :=
  let lines := splitOnLF prBody.data
  let flags := lines.foldl
    (fun (f : Bool × Bool × Bool) line =>
      let trimmed := jsTrim ⟨line⟩
      if hasCheckedBox trimmed.data then
        let lowerLine := jsToLower trimmed
        if strIncludes lowerLine (jsToLower checkboxP0) then (true, f.2.1, f.2.2)
        else if strIncludes lowerLine (jsToLower checkboxP1) then (f.1, true, f.2.2)
        else if strIncludes lowerLine (jsToLower checkboxP2) then (f.1, f.2.1, true)
        else f
      else f)
    (false, false, false)
  if flags.1 = true then "p0"
  else if flags.2.1 = true then "p1"
  else if flags.2.2 = true then "p2"
  else "p2"

/-- One network attempt's outcome, as the environment supplies it: an HTTP
response (status, status text, parsed JSON body) or a rejected fetch
promise carrying an error name and message. -/
inductive Outcome where
  | http (status : Nat) (statusText : String) (body : Json)
  | netErr (ename emsg : String)

/-- A diagnostic emitted through `core.info` or `core.warning`. -/
inductive LogMsg where
  | info (text : String)
  | warning (text : String)

/-- Text of a diagnostic. -/
def logText : LogMsg → String
  | .info t => t
  | .warning t => t

/-- Terminal result of `fetchReviewers`: a normalized reviewer list, the
graceful `null`, or a raised error with its message. -/
inductive FetchResult where
  | success (reviewers : List Json)
  | degraded
  | failure (message : String)

/-- Everything one run of `fetchReviewers` does, in order: the requests it
sends (url and authorization header), the backoff sleeps, the diagnostics,
and the result. -/
structure FetchTrace where
  requests : List (String × String)
  delays : List Nat
  logs : List LogMsg
  result : FetchResult

/-- The request of one attempt (source lines 286 and 292-298). -/
def reqOf (apiKey urgency : String) : String × String :=
  ("https://cr-cab.com/api/reviewers/available?severity=" ++ urgency,
   "Bearer " ++ apiKey)

/-- Backoff delay table `retryDelays = [250, 750]`. -/
def retryDelay (attempt : Nat) : Nat := List.getD [250, 750] attempt 0

/-- Message of the error thrown on a non-ok response (source line 315). -/
def apiErrMsg (status : Nat) (statusText : String) : String :=
  "CR Cab API error: " ++ natDecimal status ++ " " ++ statusText

/-- Diagnostic of the 5xx retry path (source line 308). -/
def retry5xxMsg (status delay attempt : Nat) : String :=
  "CR Cab API returned " ++ natDecimal status ++ ", retrying in " ++
    natDecimal delay ++ "ms (attempt " ++ natDecimal (attempt + 1) ++ "/2)"

/-- Diagnostic of the network-error retry path (source line 355). -/
def netRetryMsg (delay attempt : Nat) : String :=
  "Network error, retrying in " ++ natDecimal delay ++ "ms (attempt " ++
    natDecimal (attempt + 1) ++ "/2)"

/-- Non-blocking diagnostic for an exhausted 5xx (source line 321). -/
def unavailMsg (status : Nat) : String :=
  "CR Cab API unavailable (status=" ++ natDecimal status ++
    "). Skipping comment and continuing."

/-- Non-blocking diagnostic for a non-5xx error status (source line 322). -/
def errStatMsg (status : Nat) : String :=
  "CR Cab API error (status=" ++ natDecimal status ++
    "). Skipping comment and continuing."

/-- Non-blocking diagnostic of the catch-all path (source line 366). -/
def netErrMsg : String :=
  "CR Cab API network error. Skipping comment and continuing."

/-- Non-blocking diagnostic after the loop (source line 373). -/
def exhaustedMsg : String :=
  "CR Cab API unavailable after retries. Skipping comment and continuing."

/-- The characters of `'fetch'`, the substring the catch handler tests the
error message for (source line 353). -/
def fetchNeedle : List Char := "fetch".data

/-- The catch handler of the fetch loop (source lines 351-368).  `rest` is
the trace of the remaining attempts, consumed only on the retry branch. -/
def catchStep (failOnApiError : Bool) (attempt : Nat) (req : String × String)
    (ename emsg : String) (rest : FetchTrace) : FetchTrace :=
  if attempt < 2 ∧ (ename = "TypeError" ∨ occursIn fetchNeedle emsg.data = true) then
    ⟨req :: rest.requests, retryDelay attempt :: rest.delays,
      .info (netRetryMsg (retryDelay attempt) attempt) :: rest.logs, rest.result⟩
  else if failOnApiError then
    ⟨[req], [], [], .failure ("CR Cab API network error: " ++ emsg)⟩
  else
    ⟨[req], [], [.warning netErrMsg], .degraded⟩

/-- Shape dispatch on a successful response's body (source lines 328-339):
accept a bare array, or an object whose `reviewers` field is an array;
reading `.reviewers` off `null` throws a TypeError; anything else throws
the format error.  The error carries the thrown error's name and message,
which is what the catch handler inspects. -/
def parseBody : Json → Except (String × String) (List Json)
  | .arr xs => .ok xs
  | .null => .error ("TypeError", "Cannot read properties of null (reading reviewers)")
  | .obj fields =>
      match jsField (Json.obj fields) "reviewers" with
      | some (.arr xs) => .ok xs
      | _ => .error ("Error", "Invalid API response format")
  | _ => .error ("Error", "Invalid API response format")

/-- Normalization of one reviewer entry (source lines 342-350): a string
passes through; otherwise a truthy entry's truthy `githubUsername` field is
extracted; anything else throws the entry format error. -/
def normEntry (e : Json) : Except String Json :=
  match e with
  | .str s => .ok (.str s)
  | _ =>
    if jsTruthy e then
      match jsField e "githubUsername" with
      | some v =>
          if jsTruthy v then .ok v
          else .error ("Invalid reviewer format: " ++ jsonStringify e)
      | none => .error ("Invalid reviewer format: " ++ jsonStringify e)
    else .error ("Invalid reviewer format: " ++ jsonStringify e)

/-- `reviewerList.map(...)` with a throwing callback: left to right,
stopping at the first error. -/
def normalizeEntries : List Json → Except String (List Json)
  | [] => .ok []
  | e :: rest =>
    match normEntry e with
    | .error m => .error m
    | .ok v =>
      match normalizeEntries rest with
      | .error m => .error m
      | .ok vs => .ok (v :: vs)

/-- The retry loop of `fetchReviewers` (source lines 290-369), run from
`attempt` with `fuel` loop iterations left (the source's `for` loop gives
fuel 3 from attempt 0; the fuel-exhausted case is the code after the loop,
source lines 371-376). -/
def fetchLoop (apiKey urgency : String) (failOnApiError : Bool)
    (outcomes : Nat → Outcome) : Nat → Nat → FetchTrace
  | 0, _ =>
    if failOnApiError then ⟨[], [], [], .failure "CR Cab API unavailable after retries"⟩
    else ⟨[], [], [.warning exhaustedMsg], .degraded⟩
  | fuel + 1, attempt =>
    match outcomes attempt with
    | .netErr ename emsg =>
        catchStep failOnApiError attempt (reqOf apiKey urgency) ename emsg
          (fetchLoop apiKey urgency failOnApiError outcomes fuel (attempt + 1))
    | .http status statusText body =>
        if 200 ≤ status ∧ status < 300 then
          match parseBody body with
          | .error (ename, emsg) =>
              catchStep failOnApiError attempt (reqOf apiKey urgency) ename emsg
                (fetchLoop apiKey urgency failOnApiError outcomes fuel (attempt + 1))
          | .ok entries =>
              match normalizeEntries entries with
              | .error emsg =>
                  catchStep failOnApiError attempt (reqOf apiKey urgency) "Error" emsg
                    (fetchLoop apiKey urgency failOnApiError outcomes fuel (attempt + 1))
              | .ok vs => ⟨[reqOf apiKey urgency], [], [], .success vs⟩
        else
          if 500 ≤ status ∧ attempt < 2 then
            ⟨reqOf apiKey urgency ::
                (fetchLoop apiKey urgency failOnApiError outcomes fuel (attempt + 1)).requests,
              retryDelay attempt ::
                (fetchLoop apiKey urgency failOnApiError outcomes fuel (attempt + 1)).delays,
              .info (retry5xxMsg status (retryDelay attempt) attempt) ::
                (fetchLoop apiKey urgency failOnApiError outcomes fuel (attempt + 1)).logs,
              (fetchLoop apiKey urgency failOnApiError outcomes fuel (attempt + 1)).result⟩
          else if failOnApiError then
            catchStep failOnApiError attempt (reqOf apiKey urgency) "Error"
              (apiErrMsg status statusText)
              (fetchLoop apiKey urgency failOnApiError outcomes fuel (attempt + 1))
          else
            ⟨[reqOf apiKey urgency], [],
              [.warning (if 500 ≤ status then unavailMsg status else errStatMsg status)],
              .degraded⟩

/-- The reviewer pool fetcher, source lines 285-377: up to 3 attempts
driven by the environment's outcome sequence. -/
def fetchReviewers (apiKey urgency : String) (failOnApiError : Bool)
    (outcomes : Nat → Outcome) : FetchTrace :=
  fetchLoop apiKey urgency failOnApiError outcomes 3 0

/-- Effective seed of the selector (source line 388): the `seed` input when
truthy (non-empty), parsed base 10, else the pull-request number; `none`
models `NaN`. -/
def effSeed (seed : String) (prNumber : Nat) : Option Int :=
  if seed = "" then some (prNumber : Int) else jsParseInt seed

/-- The deterministic selector, source lines 379-400. -/
def selectRandomReviewer (reviewers : List String) (seed : String)
    (prNumber : Nat) : Except String String :=
  if reviewers.length = 0 then .error "No reviewers provided"
  else if reviewers.length = 1 then .ok (reviewers.getD 0 "")
  else
    let seedStr : String :=
      match effSeed seed prNumber with
      | some n => intDecimal n
      | none => "NaN"
    .ok (reviewers.getD ((jsHashString seedStr).natAbs % reviewers.length) "")

/-- Author exclusion from `run` (source lines 217-219): keep the
candidates whose lowercased identity differs from the lowercased author
identity. -/
def eligibleReviewers (availableReviewers : List String) (prAuthor : String) :
    List String :=
  availableReviewers.filter (fun reviewer => jsToLower reviewer != jsToLower prAuthor)

theorem toInt32_emod (a : Int) : toInt32 a % 4294967296 = a % 4294967296 := by
  unfold toInt32
  omega

theorem toInt32_congr {a b : Int} (h : a % 4294967296 = b % 4294967296) :
    toInt32 a = toInt32 b := by
  unfold toInt32
  omega

/-- The shift-and-subtract step of the source equals the specification's
`hash * 31 + charCode` step under 32-bit wraparound. -/
theorem hashStep_eq_spec (h : Int) (c : Nat) : hashStep h c = hashStepSpec h c := by
  unfold hashStep hashStepSpec
  apply toInt32_congr
  have h32 := toInt32_emod (h * 32)
  omega

theorem jsHashString_eq_spec (s : String) : jsHashString s = specHashString s := by
  unfold jsHashString specHashString
  generalize s.data = l
  suffices h : ∀ (l : List Char) (a : Int),
      List.foldl (fun h c => hashStep h c.toNat) a l =
      List.foldl (fun h c => hashStepSpec h c.toNat) a l from h l 0
  intro l
  induction l with
  | nil => intro a; rfl
  | cons c cs ih =>
    intro a
    simp only [List.foldl]
    rw [hashStep_eq_spec]
    exact ih _

theorem getD_mem_of_lt (l : List String) (i : Nat) (d : String) (h : i < l.length) :
    l.getD i d ∈ l := by
  induction l generalizing i with
  | nil => simp at h
  | cons x xs ih =>
    cases i with
    | zero => simp [List.getD]
    | succ n =>
      have hn : n < xs.length := by simpa using h
      simp only [List.getD_cons_succ]
      exact List.mem_cons_of_mem _ (ih n hn)

/-- Claim C1 evidence: on a description with no checked markers at all (the
input the repository's own test `detectUrgency.test.js` exercises and
expects `"p1"` for), the classifier returns `"p2"`, not the documented
default `"p1"`. -/
theorem claim_C1 :
    detectUrgency "This is a PR with no urgency checkboxes" "P0" "P1" "P2" = "p2" ∧
    ("p2" : String) ≠ "p1" := by
  exact ⟨rfl, by decide⟩

/-- Claim C7: on a list of at least two candidates the selector's index is
the specification's formula — hash the effective seed's decimal string by
`hash = hash * 31 + charCode` under 32-bit signed wraparound, then take
`abs(hash) mod listLength` — where the effective seed is the parsed
explicit seed when one is supplied and the pull-request number otherwise. -/
theorem claim_C7 (reviewers : List String) (seed : String) (prNumber : Nat)
    (k : Int) (h2 : 2 ≤ reviewers.length) (hk : effSeed seed prNumber = some k) :
    (specHashString (intDecimal k)).natAbs % reviewers.length < reviewers.length ∧
    selectRandomReviewer reviewers seed prNumber =
      .ok (reviewers.getD
        ((specHashString (intDecimal k)).natAbs % reviewers.length) "") := by
  refine ⟨Nat.mod_lt _ (by omega), ?_⟩
  unfold selectRandomReviewer
  rw [if_neg (by omega), if_neg (by omega), hk]
  simp [jsHashString_eq_spec]

/-- Claim C7 witness: list `["a", "b", "c"]`, no explicit seed,
pull-request number 42. -/
theorem claim_C7_w :
    effSeed "" 42 = some 42 ∧
    2 ≤ (["a", "b", "c"] : List String).length ∧
    selectRandomReviewer ["a", "b", "c"] "" 42 =
      .ok ((["a", "b", "c"] : List String).getD
        ((specHashString (intDecimal 42)).natAbs % (["a", "b", "c"] : List String).length) "") :=
  ⟨rfl, by decide, (claim_C7 ["a", "b", "c"] "" 42 42 (by decide) rfl).2⟩

/-- Claim C8: the selector raises exactly on an empty candidate list, on a
non-empty list returns one element of the list, and on a singleton returns
that entry whatever the seed and pull-request number are. -/
theorem claim_C8 (reviewers : List String) (seed : String) (prNumber : Nat) :
    ((∃ m, selectRandomReviewer reviewers seed prNumber = .error m) ↔ reviewers = []) ∧
    (reviewers ≠ [] →
      ∃ r, selectRandomReviewer reviewers seed prNumber = .ok r ∧ r ∈ reviewers) ∧
    (∀ x : String, selectRandomReviewer [x] seed prNumber = .ok x) := by
  have single : ∀ x : String, selectRandomReviewer [x] seed prNumber = .ok x := by
    intro x
    unfold selectRandomReviewer
    rw [if_neg (by simp), if_pos (by simp)]
    rfl
  have okCase : reviewers ≠ [] →
      ∃ r, selectRandomReviewer reviewers seed prNumber = .ok r ∧ r ∈ reviewers := by
    intro hne
    have hlen : 0 < reviewers.length := List.length_pos.mpr hne
    unfold selectRandomReviewer
    rw [if_neg (by omega)]
    by_cases h1 : reviewers.length = 1
    · rw [if_pos h1]
      exact ⟨_, rfl, getD_mem_of_lt _ _ _ (by omega)⟩
    · rw [if_neg h1]
      exact ⟨_, rfl, getD_mem_of_lt _ _ _ (Nat.mod_lt _ hlen)⟩
  refine ⟨⟨?_, ?_⟩, okCase, single⟩
  · intro ⟨m, hm⟩
    by_contra hne
    obtain ⟨r, hr, _⟩ := okCase hne
    rw [hr] at hm
    exact Except.noConfusion hm
  · intro he
    subst he
    exact ⟨"No reviewers provided", rfl⟩

/-- Claim C9: a truthy seed that does not parse as an integer makes the
selector hash the string `"NaN"`, so every such seed selects the same
candidate, whatever the pull-request numbers are. -/
theorem claim_C9 (reviewers : List String) (seed₁ seed₂ : String) (pr₁ pr₂ : Nat)
    (h2 : 2 ≤ reviewers.length) (hs₁ : seed₁ ≠ "") (hp₁ : jsParseInt seed₁ = none)
    (hs₂ : seed₂ ≠ "") (hp₂ : jsParseInt seed₂ = none) :
    selectRandomReviewer reviewers seed₁ pr₁ =
      .ok (reviewers.getD ((jsHashString "NaN").natAbs % reviewers.length) "") ∧
    selectRandomReviewer reviewers seed₁ pr₁ =
      selectRandomReviewer reviewers seed₂ pr₂ := by
  have key : ∀ (seed : String) (pr : Nat), seed ≠ "" → jsParseInt seed = none →
      selectRandomReviewer reviewers seed pr =
        .ok (reviewers.getD ((jsHashString "NaN").natAbs % reviewers.length) "") := by
    intro seed pr hs hp
    unfold selectRandomReviewer effSeed
    rw [if_neg (by omega), if_neg (by omega), if_neg hs, hp]
  exact ⟨key seed₁ pr₁ hs₁ hp₁,
    (key seed₁ pr₁ hs₁ hp₁).trans (key seed₂ pr₂ hs₂ hp₂).symm⟩

/-- Claim C9 witness: the seeds `"my-stable-seed"` and `"another-seed"`
both fail to parse and agree on the selected candidate. -/
theorem claim_C9_w :
    2 ≤ (["a", "b", "c"] : List String).length ∧
    jsParseInt "my-stable-seed" = none ∧
    selectRandomReviewer ["a", "b", "c"] "my-stable-seed" 7 =
      .ok ((["a", "b", "c"] : List String).getD
        ((jsHashString "NaN").natAbs % (["a", "b", "c"] : List String).length) "") ∧
    selectRandomReviewer ["a", "b", "c"] "my-stable-seed" 7 =
      selectRandomReviewer ["a", "b", "c"] "another-seed" 9000 :=
  ⟨by decide, by decide,
    (claim_C9 ["a", "b", "c"] "my-stable-seed" "another-seed" 7 9000 (by decide)
      (by decide) (by decide) (by decide) (by decide)).1,
    (claim_C9 ["a", "b", "c"] "my-stable-seed" "another-seed" 7 9000 (by decide)
      (by decide) (by decide) (by decide) (by decide)).2⟩

/-- Claim C10: author exclusion keeps exactly the candidates whose
ASCII-lowercased identity differs from the lowercased author identity. -/
theorem claim_C10 (pool : List String) (author r : String) :
    r ∈ eligibleReviewers pool author ↔ r ∈ pool ∧ jsToLower r ≠ jsToLower author := by
  simp [eligibleReviewers, List.mem_filter, bne_iff_ne]

/-- The candidate-marker pattern anchored at the head of a text: a bullet,
optional whitespace, then a bracketed `x` or `X`.  This is the
specification's "begins with" reading of the checkbox pattern. -/
def CheckedAt (cs : List Char) : Prop :=
  ∃ (b : Char) (ws : List Char) (c : Char) (post : List Char),
    cs = b :: (ws ++ '[' :: c :: ']' :: post) ∧
    (b = '-' ∨ b = '*') ∧ (∀ w ∈ ws, isJsSpace w = true) ∧ (c = 'x' ∨ c = 'X')

theorem dropWhile_append_all {p : Char → Bool} {ws : List Char} {a : Char}
    (rest : List Char) (hws : ∀ w ∈ ws, p w = true) (ha : p a = false) :
    (ws ++ a :: rest).dropWhile p = a :: rest := by
  induction ws with
  | nil => simp [List.dropWhile, ha]
  | cons w ws ih =>
    have hw : p w = true := hws w (List.mem_cons_self w ws)
    simp only [List.cons_append, List.dropWhile, hw]
    exact ih (fun x hx => hws x (List.mem_cons_of_mem w hx))

theorem afterBullet_iff (cs : List Char) :
    afterBullet cs = true ↔
    ∃ (ws : List Char) (c : Char) (post : List Char),
      cs = ws ++ '[' :: c :: ']' :: post ∧
      (∀ w ∈ ws, isJsSpace w = true) ∧ (c = 'x' ∨ c = 'X') := by
  constructor
  · intro h
    unfold afterBullet at h
    rcases hd : cs.dropWhile isJsSpace with _ | ⟨a, _ | ⟨c, _ | ⟨b, rest⟩⟩⟩ <;>
      rw [hd] at h
    · simp [boxTest] at h
    · simp [boxTest] at h
    · simp [boxTest] at h
    · have hshape := (List.takeWhile_append_dropWhile (p := isJsSpace) (l := cs)).symm
      rw [hd] at hshape
      simp only [boxTest, Bool.and_eq_true, Bool.or_eq_true, beq_iff_eq] at h
      obtain ⟨⟨ha, hc⟩, hb⟩ := h
      subst ha
      subst hb
      exact ⟨cs.takeWhile isJsSpace, c, rest, hshape,
        fun w hw => List.mem_takeWhile_imp hw, hc⟩
  · rintro ⟨ws, c, post, heq, hws, hc⟩
    unfold afterBullet
    rw [heq, dropWhile_append_all _ hws (by decide)]
    rcases hc with h | h <;> subst h <;> rfl

theorem checkedBoxAt_iff (cs : List Char) :
    checkedBoxAt cs = true ↔ CheckedAt cs := by
  constructor
  · intro h
    cases cs with
    | nil => exact absurd h (by simp [checkedBoxAt])
    | cons b rest =>
      simp only [checkedBoxAt, Bool.and_eq_true, Bool.or_eq_true, beq_iff_eq] at h
      obtain ⟨hb, hab⟩ := h
      obtain ⟨ws, c, post, heq, hws, hc⟩ := (afterBullet_iff rest).mp hab
      exact ⟨b, ws, c, post, by rw [heq], hb, hws, hc⟩
  · rintro ⟨b, ws, c, post, heq, hb, hws, hc⟩
    subst heq
    simp only [checkedBoxAt, Bool.and_eq_true, Bool.or_eq_true, beq_iff_eq]
    exact ⟨hb, (afterBullet_iff _).mpr ⟨ws, c, post, rfl, hws, hc⟩⟩

theorem hasCheckedBox_iff (cs : List Char) :
    hasCheckedBox cs = true ↔
    ∃ pre suf, cs = pre ++ suf ∧ checkedBoxAt suf = true := by
  induction cs with
  | nil =>
    simp only [hasCheckedBox]
    constructor
    · intro h; exact absurd h (by simp)
    · rintro ⟨pre, suf, heq, hc⟩
      obtain ⟨hpre, hsuf⟩ := List.append_eq_nil.mp heq.symm
      subst hsuf
      exact absurd hc (by simp [checkedBoxAt])
  | cons c rest ih =>
    simp only [hasCheckedBox, Bool.or_eq_true]
    constructor
    · rintro (h | h)
      · exact ⟨[], c :: rest, rfl, h⟩
      · obtain ⟨pre, suf, heq, hc⟩ := ih.mp h
        exact ⟨c :: pre, suf, by simp [heq], hc⟩
    · rintro ⟨pre, suf, heq, hc⟩
      cases pre with
      | nil =>
        left
        have hsuf : suf = c :: rest := by simpa using heq.symm
        rw [hsuf] at hc
        exact hc
      | cons p ps =>
        right
        apply ih.mpr
        refine ⟨ps, suf, ?_, hc⟩
        have := heq
        simp only [List.cons_append, List.cons.injEq] at this
        exact this.2

/-- Claim C5, amended: a line is a candidate marker line iff its trimmed
text CONTAINS — anywhere, not necessarily at its start — a list bullet
`-` or `*` followed by optional whitespace and a bracketed `x`/`X`; the
source's regex test carries no `^` anchor. -/
theorem claim_C5 (line : String) :
    hasCheckedBox (jsTrim line).data = true ↔
    ∃ pre suf, (jsTrim line).data = pre ++ suf ∧ CheckedAt suf := by
  rw [hasCheckedBox_iff]
  constructor
  · rintro ⟨pre, suf, heq, hc⟩
    exact ⟨pre, suf, heq, (checkedBoxAt_iff suf).mp hc⟩
  · rintro ⟨pre, suf, heq, hc⟩
    exact ⟨pre, suf, heq, (checkedBoxAt_iff suf).mpr hc⟩

/-- Claim C5 counterexample: on the line `"see - [x] P0"` the checked
pattern occurs only past the start of the trimmed line, yet the code's
candidacy test accepts the line and the detector consequently reports p0
(a non-candidate line could never produce `"p0"`). -/
theorem claim_C5_cx :
    hasCheckedBox (jsTrim "see - [x] P0").data = true ∧
    checkedBoxAt (jsTrim "see - [x] P0").data = false ∧
    detectUrgency "see - [x] P0" "P0" "P1" "P2" = "p0" :=
  ⟨by decide, by decide, rfl⟩

theorem str_data_append (a b : String) : (a ++ b).data = a.data ++ b.data := rfl

theorem head_mem_of_occursIn {p : Char} {ps cs : List Char}
    (h : occursIn (p :: ps) cs = true) : p ∈ cs := by
  induction cs with
  | nil => simp [occursIn, leadsWith] at h
  | cons c rest ih =>
    simp only [occursIn, Bool.or_eq_true] at h
    rcases h with h | h
    · simp only [leadsWith, Bool.and_eq_true, beq_iff_eq] at h
      exact h.1 ▸ List.mem_cons_self _ _
    · exact List.mem_cons_of_mem _ (ih h)

theorem occursIn_append_right (pat xs : List Char) {ys : List Char}
    (h : occursIn pat ys = true) : occursIn pat (xs ++ ys) = true := by
  induction xs with
  | nil => simpa using h
  | cons x xs ih =>
    simp only [List.cons_append, occursIn, Bool.or_eq_true]
    right
    exact ih

theorem leadsWith_append (pat ys : List Char) : leadsWith pat (pat ++ ys) = true := by
  induction pat with
  | nil => rfl
  | cons p ps ih => simp [leadsWith, ih]

theorem occursIn_append_self (pat ys : List Char) : occursIn pat (pat ++ ys) = true := by
  cases pat with
  | nil => cases ys <;> simp [occursIn, leadsWith]
  | cons p ps =>
    simp only [List.cons_append, occursIn, Bool.or_eq_true]
    left
    exact leadsWith_append (p :: ps) ys

theorem occursIn_self (l : List Char) : occursIn l l = true := by
  have h := occursIn_append_self l []
  simpa using h

theorem occursIn_append_head_notMem {p : Char} {ps : List Char} (xs ys : List Char)
    (hx : p ∉ xs) : occursIn (p :: ps) (xs ++ ys) = occursIn (p :: ps) ys := by
  induction xs with
  | nil => rfl
  | cons x xs ih =>
    have hpx : p ≠ x := fun h => hx (h ▸ List.mem_cons_self x xs)
    have hlead : leadsWith (p :: ps) (x :: (xs ++ ys)) = false := by
      simp [leadsWith, hpx]
    show (leadsWith (p :: ps) (x :: (xs ++ ys)) || occursIn (p :: ps) (xs ++ ys)) =
      occursIn (p :: ps) ys
    rw [hlead, Bool.false_or, ih (fun h => hx (List.mem_cons_of_mem _ h))]

theorem natDecimalAux_digits (fuel : Nat) :
    ∀ (n : Nat), ∀ c ∈ natDecimalAux fuel n, ∃ d, d < 10 ∧ c = digitChar d := by
  induction fuel with
  | zero => intro n c hc; simp [natDecimalAux] at hc
  | succ fuel ih =>
    intro n c hc
    simp only [natDecimalAux] at hc
    by_cases h : n < 10
    · rw [if_pos h] at hc
      simp only [List.mem_singleton] at hc
      exact ⟨n, h, hc⟩
    · rw [if_neg h] at hc
      rcases List.mem_append.mp hc with h1 | h1
      · exact ih _ c h1
      · simp only [List.mem_singleton] at h1
        exact ⟨n % 10, Nat.mod_lt _ (by omega), h1⟩

theorem digitChar_ne_B (d : Nat) : digitChar d ≠ 'B' := by
  unfold digitChar
  split <;> decide

theorem digitChar_ne_f (d : Nat) : digitChar d ≠ 'f' := by
  unfold digitChar
  split <;> decide

theorem natDecimal_no_B (n : Nat) : 'B' ∉ (natDecimal n).data := by
  intro h
  obtain ⟨d, _, hd⟩ := natDecimalAux_digits (n + 1) n 'B' h
  exact digitChar_ne_B d hd.symm

theorem natDecimal_no_f (n : Nat) : 'f' ∉ (natDecimal n).data := by
  intro h
  obtain ⟨d, _, hd⟩ := natDecimalAux_digits (n + 1) n 'f' h
  exact digitChar_ne_f d hd.symm

theorem no_mem_append {c : Char} {a b : List Char} (ha : c ∉ a) (hb : c ∉ b) :
    c ∉ a ++ b := by
  intro h
  rcases List.mem_append.mp h with h | h
  · exact ha h
  · exact hb h

theorem fetchLoop_5xx_retry (k u : String) (fail : Bool) (o : Nat → Outcome)
    (fuel attempt : Nat) (s : Nat) (st : String) (b : Json)
    (ho : o attempt = .http s st b) (h5 : 500 ≤ s) (ha : attempt < 2) :
    fetchLoop k u fail o (fuel + 1) attempt =
      ⟨reqOf k u :: (fetchLoop k u fail o fuel (attempt + 1)).requests,
       retryDelay attempt :: (fetchLoop k u fail o fuel (attempt + 1)).delays,
       .info (retry5xxMsg s (retryDelay attempt) attempt) ::
         (fetchLoop k u fail o fuel (attempt + 1)).logs,
       (fetchLoop k u fail o fuel (attempt + 1)).result⟩ := by
  simp only [fetchLoop, ho]
  rw [if_neg (by omega), if_pos ⟨h5, ha⟩]

theorem fetchLoop_5xx_last (k u : String) (fail : Bool) (o : Nat → Outcome)
    (fuel : Nat) (s : Nat) (st : String) (b : Json)
    (ho : o 2 = .http s st b) (h5 : 500 ≤ s) :
    fetchLoop k u fail o (fuel + 1) 2 =
      if fail then
        ⟨[reqOf k u], [], [],
         .failure ("CR Cab API network error: " ++ apiErrMsg s st)⟩
      else ⟨[reqOf k u], [], [.warning (unavailMsg s)], .degraded⟩ := by
  simp only [fetchLoop, ho]
  rw [if_neg (by omega), if_neg (fun h => by omega)]
  by_cases hf : fail
  · rw [if_pos hf, if_pos hf]
    unfold catchStep
    rw [if_neg (fun h => by omega), if_pos hf]
  · rw [if_neg hf, if_neg hf, if_pos h5]

theorem fetch_5xx_trace (k u : String) (fail : Bool) (o : Nat → Outcome)
    (s : Nat → Nat) (st : Nat → String) (b : Nat → Json)
    (ho : ∀ i, i < 3 → o i = .http (s i) (st i) (b i))
    (hs : ∀ i, i < 3 → 500 ≤ s i) :
    fetchReviewers k u fail o =
      if fail then
        ⟨[reqOf k u, reqOf k u, reqOf k u], [250, 750],
         [.info (retry5xxMsg (s 0) 250 0), .info (retry5xxMsg (s 1) 750 1)],
         .failure ("CR Cab API network error: " ++ apiErrMsg (s 2) (st 2))⟩
      else
        ⟨[reqOf k u, reqOf k u, reqOf k u], [250, 750],
         [.info (retry5xxMsg (s 0) 250 0), .info (retry5xxMsg (s 1) 750 1),
          .warning (unavailMsg (s 2))], .degraded⟩ := by
  unfold fetchReviewers
  rw [show fetchLoop k u fail o 3 0 = fetchLoop k u fail o (2 + 1) 0 from rfl,
    fetchLoop_5xx_retry k u fail o 2 0 (s 0) (st 0) (b 0)
      (ho 0 (by omega)) (hs 0 (by omega)) (by omega)]
  rw [show fetchLoop k u fail o 2 (0 + 1) = fetchLoop k u fail o (1 + 1) 1 from rfl,
    fetchLoop_5xx_retry k u fail o 1 1 (s 1) (st 1) (b 1)
      (ho 1 (by omega)) (hs 1 (by omega)) (by omega)]
  rw [show fetchLoop k u fail o 1 (1 + 1) = fetchLoop k u fail o (0 + 1) 2 from rfl,
    fetchLoop_5xx_last k u fail o 0 (s 2) (st 2) (b 2)
      (ho 2 (by omega)) (hs 2 (by omega))]
  by_cases hf : fail
  · rw [if_pos hf, if_pos hf]
    rfl
  · rw [if_neg hf, if_neg hf]
    rfl

theorem apiErrMsg_data (s : Nat) (st : String) :
    (apiErrMsg s st).data =
      "CR Cab API error: ".data ++ ((natDecimal s).data ++ (' ' :: st.data)) := by
  simp [apiErrMsg, str_data_append, List.append_assoc]

theorem wrapped_apiErrMsg_data (s : Nat) (st : String) :
    ("CR Cab API network error: " ++ apiErrMsg s st).data =
      "CR Cab API network error: CR Cab API error: ".data ++
        ((natDecimal s).data ++ (' ' :: st.data)) := by
  have hlit : "CR Cab API network error: ".data ++ "CR Cab API error: ".data =
      "CR Cab API network error: CR Cab API error: ".data := by decide
  rw [str_data_append, apiErrMsg_data, ← List.append_assoc, hlit]

/-- Claim C3: three consecutive 5xx responses give exactly 3 attempts with
backoff sleeps of 250ms then 750ms; with `failOnApiError` false the result
is the graceful `null` with a non-blocking warning, and with it true an
error whose message names the final 5xx status is raised. -/
theorem claim_C3 (k u : String) (fail : Bool) (o : Nat → Outcome)
    (s : Nat → Nat) (st : Nat → String) (b : Nat → Json)
    (ho : ∀ i, i < 3 → o i = .http (s i) (st i) (b i))
    (hs : ∀ i, i < 3 → 500 ≤ s i) :
    (fetchReviewers k u fail o).requests.length = 3 ∧
    (fetchReviewers k u fail o).delays = [250, 750] ∧
    (fail = false → (fetchReviewers k u fail o).result = .degraded ∧
      .warning (unavailMsg (s 2)) ∈ (fetchReviewers k u fail o).logs) ∧
    (fail = true → ∃ m, (fetchReviewers k u fail o).result = .failure m ∧
      occursIn (natDecimal (s 2)).data m.data = true) := by
  rw [fetch_5xx_trace k u fail o s st b ho hs]
  by_cases hf : fail = true
  · rw [if_pos hf]
    refine ⟨rfl, rfl, fun hc => absurd hc (by rw [hf]; simp), fun _ => ⟨_, rfl, ?_⟩⟩
    rw [wrapped_apiErrMsg_data]
    exact occursIn_append_right _ _ (occursIn_append_self _ _)
  · rw [if_neg hf]
    exact ⟨rfl, rfl, fun _ => ⟨rfl, by simp⟩, fun hc => absurd hc hf⟩

/-- Claim C3 witness: three 500 responses, both failure modes. -/
theorem claim_C3_w :
    (fetchReviewers "key" "p0" false
      (fun _ => .http 500 "Internal Server Error" Json.null)).requests.length = 3 ∧
    (fetchReviewers "key" "p0" false
      (fun _ => .http 500 "Internal Server Error" Json.null)).delays = [250, 750] ∧
    (fetchReviewers "key" "p0" false
      (fun _ => .http 500 "Internal Server Error" Json.null)).result = .degraded ∧
    (∃ m, (fetchReviewers "key" "p0" true
        (fun _ => .http 500 "Internal Server Error" Json.null)).result = .failure m ∧
      occursIn "500".data m.data = true) := by
  have h1 := claim_C3 "key" "p0" false
    (fun _ => .http 500 "Internal Server Error" Json.null)
    (fun _ => 500) (fun _ => "Internal Server Error") (fun _ => Json.null)
    (fun _ _ => rfl) (fun _ _ => Nat.le_refl 500)
  have h2 := claim_C3 "key" "p0" true
    (fun _ => .http 500 "Internal Server Error" Json.null)
    (fun _ => 500) (fun _ => "Internal Server Error") (fun _ => Json.null)
    (fun _ _ => rfl) (fun _ _ => Nat.le_refl 500)
  exact ⟨h1.1, h1.2.1, (h1.2.2.1 rfl).1, h2.2.2.2 rfl⟩

theorem fetchNeedle_eq : fetchNeedle = 'f' :: "etch".data := rfl

theorem apiErrMsg_no_fetch (s : Nat) (st : String)
    (hst : occursIn fetchNeedle st.data = false) :
    occursIn fetchNeedle (apiErrMsg s st).data = false := by
  rw [fetchNeedle_eq] at hst ⊢
  rw [apiErrMsg_data]
  rw [show "CR Cab API error: ".data ++ ((natDecimal s).data ++ (' ' :: st.data)) =
      ("CR Cab API error: ".data ++ ((natDecimal s).data ++ [' '])) ++ st.data from by
    simp [List.append_assoc]]
  rw [occursIn_append_head_notMem _ _ ?hnot]
  · exact hst
  case hnot =>
    exact no_mem_append (by decide) (no_mem_append (natDecimal_no_f s) (by decide))

theorem errStat_ne_unavail (s : Nat) : errStatMsg s ≠ unavailMsg s := by
  intro h
  have hlen := congrArg (fun t : String => t.data.length) h
  simp [errStatMsg, unavailMsg, str_data_append, List.length_append] at hlen

/-- Claim C4, amended: a first-attempt response with a 4xx status gives
exactly one attempt and no sleep — provided, when `failOnApiError` is
true, the status text does not contain the substring `"fetch"` (if it
does, the thrown error's message trips the network-retry test and the
request IS retried).  With `failOnApiError` true the raised message
carries the status code and status text; with it false a warning worded
differently from the 5xx case is emitted and the result is `null`. -/
theorem claim_C4 (k u : String) (fail : Bool) (o : Nat → Outcome)
    (s : Nat) (st : String) (b : Json)
    (ho : o 0 = .http s st b) (h4 : 400 ≤ s) (h5 : s < 500)
    (hst : occursIn fetchNeedle st.data = false) :
    (fetchReviewers k u fail o).requests.length = 1 ∧
    (fetchReviewers k u fail o).delays = [] ∧
    (fail = true → (fetchReviewers k u fail o).result =
        .failure ("CR Cab API network error: " ++ apiErrMsg s st) ∧
      occursIn (natDecimal s).data
        ("CR Cab API network error: " ++ apiErrMsg s st).data = true ∧
      occursIn st.data ("CR Cab API network error: " ++ apiErrMsg s st).data = true) ∧
    (fail = false → (fetchReviewers k u fail o).result = .degraded ∧
      (fetchReviewers k u fail o).logs = [.warning (errStatMsg s)] ∧
      errStatMsg s ≠ unavailMsg s) := by
  have htrace : fetchReviewers k u fail o =
      if fail then ⟨[reqOf k u], [], [],
        .failure ("CR Cab API network error: " ++ apiErrMsg s st)⟩
      else ⟨[reqOf k u], [], [.warning (errStatMsg s)], .degraded⟩ := by
    unfold fetchReviewers
    rw [show fetchLoop k u fail o 3 0 = fetchLoop k u fail o (2 + 1) 0 from rfl]
    simp only [fetchLoop, ho]
    rw [if_neg (fun h => by omega), if_neg (fun h => by omega)]
    by_cases hf : fail = true
    · have hcond : ¬(0 < 2 ∧ ("Error" = "TypeError" ∨
          occursIn fetchNeedle (apiErrMsg s st).data = true)) := by
        rintro ⟨-, he | hocc⟩
        · exact absurd he (by decide)
        · rw [apiErrMsg_no_fetch s st hst] at hocc
          exact Bool.false_ne_true hocc
      rw [if_pos hf]
      unfold catchStep
      rw [if_neg hcond, if_pos hf, if_pos hf]
    · rw [if_neg hf, if_neg hf, if_neg (by omega)]
  rw [htrace]
  by_cases hf : fail = true
  · rw [if_pos hf]
    refine ⟨rfl, rfl, fun _ => ⟨rfl, ?_, ?_⟩, fun hc => absurd hc (by rw [hf]; simp)⟩
    · rw [wrapped_apiErrMsg_data]
      exact occursIn_append_right _ _ (occursIn_append_self _ _)
    · rw [wrapped_apiErrMsg_data]
      exact occursIn_append_right _ _
        (occursIn_append_right _ _ (occursIn_append_right _ [' '] (occursIn_self _)))
  · rw [if_neg hf]
    exact ⟨rfl, rfl, fun hc => absurd hc hf, fun _ => ⟨rfl, rfl, errStat_ne_unavail s⟩⟩

/-- Claim C4 counterexample: a 404 response whose status text is the
string `"fetch"` makes the strict mode retry — three attempts and both
backoff sleeps happen, where the claim requires exactly one attempt for
both values of `failOnApiError`. -/
theorem claim_C4_cx :
    (fetchReviewers "k" "p2" true
      (fun _ => .http 404 "fetch" Json.null)).requests.length = 3 ∧
    (fetchReviewers "k" "p2" true
      (fun _ => .http 404 "fetch" Json.null)).delays = [250, 750] :=
  ⟨rfl, rfl⟩

/-- Claim C4 witness: a plain 404 with status text `"Not Found"`, in both
failure modes. -/
theorem claim_C4_w :
    (fetchReviewers "key" "p1" false
      (fun _ => .http 404 "Not Found" Json.null)).requests.length = 1 ∧
    (fetchReviewers "key" "p1" false
      (fun _ => .http 404 "Not Found" Json.null)).result = .degraded ∧
    (fetchReviewers "key" "p1" true
      (fun _ => .http 404 "Not Found" Json.null)).result =
      .failure ("CR Cab API network error: " ++ apiErrMsg 404 "Not Found") := by
  have h1 := claim_C4 "key" "p1" false (fun _ => .http 404 "Not Found" Json.null)
    404 "Not Found" Json.null rfl (by omega) (by omega) (by decide)
  have h2 := claim_C4 "key" "p1" true (fun _ => .http 404 "Not Found" Json.null)
    404 "Not Found" Json.null rfl (by omega) (by omega) (by decide)
  exact ⟨h1.1, (h1.2.2.2 rfl).1, (h2.2.2.1 rfl).1⟩

theorem jsonStringify_num_zero : jsonStringify (Json.num 0) = "0" := by
  simp only [jsonStringify, intDecimal, natDecimal]
  decide

/-- Claim C2 evidence: with `failOnApiError` false, a 200 response whose
body is neither an array nor a record with an array `reviewers` field, and
likewise a 200 response whose array holds the non-string falsy entry `0`,
both end in the graceful `null` after a single attempt with the generic
network-error warning — the thrown format error is swallowed by the
function's own catch handler instead of propagating. -/
theorem claim_C2 :
    (fetchReviewers "secret-key" "p0" false
      (fun _ => .http 200 "OK" (.obj [("count", .num 0)]))).result = .degraded ∧
    (fetchReviewers "secret-key" "p0" false
      (fun _ => .http 200 "OK" (.obj [("count", .num 0)]))).requests.length = 1 ∧
    (fetchReviewers "secret-key" "p0" false
      (fun _ => .http 200 "OK" (.obj [("count", .num 0)]))).logs =
      [.warning netErrMsg] ∧
    (fetchReviewers "secret-key" "p0" false
      (fun _ => .http 200 "OK" (.arr [.num 0]))).result = .degraded := by
  have hn : normalizeEntries [Json.num 0] = .error "Invalid reviewer format: 0" := by
    simp [normalizeEntries, normEntry, jsTruthy, jsonStringify_num_zero]
  refine ⟨rfl, rfl, rfl, ?_⟩
  show (fetchLoop "secret-key" "p0" false _ (2 + 1) 0).result = .degraded
  simp only [fetchLoop]
  rw [if_pos (by omega)]
  simp only [parseBody]
  rw [hn]
  rfl

theorem retry5xxMsg_no_B (s d a : Nat) : 'B' ∉ (retry5xxMsg s d a).data := by
  unfold retry5xxMsg
  simp only [str_data_append]
  repeat' apply no_mem_append
  all_goals first | exact natDecimal_no_B _ | decide

theorem netRetryMsg_no_B (d a : Nat) : 'B' ∉ (netRetryMsg d a).data := by
  unfold netRetryMsg
  simp only [str_data_append]
  repeat' apply no_mem_append
  all_goals first | exact natDecimal_no_B _ | decide

theorem unavailMsg_no_B (s : Nat) : 'B' ∉ (unavailMsg s).data := by
  unfold unavailMsg
  simp only [str_data_append]
  repeat' apply no_mem_append
  all_goals first | exact natDecimal_no_B _ | decide

theorem errStatMsg_no_B (s : Nat) : 'B' ∉ (errStatMsg s).data := by
  unfold errStatMsg
  simp only [str_data_append]
  repeat' apply no_mem_append
  all_goals first | exact natDecimal_no_B _ | decide

theorem catchStep_logs_eq (fail : Bool) (attempt : Nat) (r₁ r₂ : String × String)
    (en em : String) (t₁ t₂ : FetchTrace) (h : t₁.logs = t₂.logs) :
    (catchStep fail attempt r₁ en em t₁).logs =
      (catchStep fail attempt r₂ en em t₂).logs := by
  unfold catchStep
  split_ifs <;> simp [h]

theorem catchStep_logs_no_B (fail : Bool) (attempt : Nat) (r : String × String)
    (en em : String) (t : FetchTrace)
    (ht : ∀ m ∈ t.logs, 'B' ∉ (logText m).data) :
    ∀ m ∈ (catchStep fail attempt r en em t).logs, 'B' ∉ (logText m).data := by
  unfold catchStep
  split_ifs
  · intro m hm
    rcases List.mem_cons.mp hm with h | h
    · subst h
      exact netRetryMsg_no_B _ _
    · exact ht m h
  · intro m hm
    simp at hm
  · intro m hm
    rcases List.mem_cons.mp hm with h | h
    · subst h
      decide
    · simp at h

theorem fetchLoop_logs_key (u : String) (fail : Bool) (o : Nat → Outcome)
    (k₁ k₂ : String) (fuel : Nat) :
    ∀ attempt, (fetchLoop k₁ u fail o fuel attempt).logs =
      (fetchLoop k₂ u fail o fuel attempt).logs := by
  induction fuel with
  | zero => intro attempt; rfl
  | succ fuel ih =>
    intro attempt
    simp only [fetchLoop]
    cases ho : o attempt with
    | netErr en em => exact catchStep_logs_eq _ _ _ _ _ _ _ _ (ih (attempt + 1))
    | http s st b =>
      dsimp only
      by_cases hok : 200 ≤ s ∧ s < 300
      · rw [if_pos hok, if_pos hok]
        cases hp : parseBody b with
        | error e =>
          obtain ⟨en, em⟩ := e
          exact catchStep_logs_eq _ _ _ _ _ _ _ _ (ih (attempt + 1))
        | ok entries =>
          dsimp only
          cases hn : normalizeEntries entries with
          | error em => exact catchStep_logs_eq _ _ _ _ _ _ _ _ (ih (attempt + 1))
          | ok vs => rfl
      · rw [if_neg hok, if_neg hok]
        by_cases hr : 500 ≤ s ∧ attempt < 2
        · rw [if_pos hr, if_pos hr]
          simp [ih (attempt + 1)]
        · rw [if_neg hr, if_neg hr]
          by_cases hf : fail = true
          · rw [if_pos hf, if_pos hf]
            exact catchStep_logs_eq _ _ _ _ _ _ _ _ (ih (attempt + 1))
          · rw [if_neg hf, if_neg hf]

theorem fetchLoop_logs_no_B (k u : String) (fail : Bool) (o : Nat → Outcome)
    (fuel : Nat) : ∀ attempt, ∀ m ∈ (fetchLoop k u fail o fuel attempt).logs,
      'B' ∉ (logText m).data := by
  induction fuel with
  | zero =>
    intro attempt m hm
    simp only [fetchLoop] at hm
    by_cases hf : fail = true
    · rw [if_pos hf] at hm
      simp at hm
    · rw [if_neg hf] at hm
      rcases List.mem_cons.mp hm with h | h
      · subst h
        decide
      · simp at h
  | succ fuel ih =>
    intro attempt
    simp only [fetchLoop]
    cases ho : o attempt with
    | netErr en em => exact catchStep_logs_no_B _ _ _ _ _ _ (ih (attempt + 1))
    | http s st b =>
      dsimp only
      by_cases hok : 200 ≤ s ∧ s < 300
      · rw [if_pos hok]
        cases hp : parseBody b with
        | error e =>
          obtain ⟨en, em⟩ := e
          exact catchStep_logs_no_B _ _ _ _ _ _ (ih (attempt + 1))
        | ok entries =>
          dsimp only
          cases hn : normalizeEntries entries with
          | error em => exact catchStep_logs_no_B _ _ _ _ _ _ (ih (attempt + 1))
          | ok vs =>
            intro m hm
            simp at hm
      · rw [if_neg hok]
        by_cases hr : 500 ≤ s ∧ attempt < 2
        · rw [if_pos hr]
          intro m hm
          rcases List.mem_cons.mp hm with h | h
          · subst h
            exact retry5xxMsg_no_B _ _ _
          · exact ih (attempt + 1) m h
        · rw [if_neg hr]
          by_cases hf : fail = true
          · rw [if_pos hf]
            exact catchStep_logs_no_B _ _ _ _ _ _ (ih (attempt + 1))
          · rw [if_neg hf]
            intro m hm
            rcases List.mem_cons.mp hm with h | h
            · subst h
              show 'B' ∉ (if 500 ≤ s then unavailMsg s else errStatMsg s).data
              split_ifs
              · exact unavailMsg_no_B s
              · exact errStatMsg_no_B s
            · simp at h

theorem not_occursIn_bearer {msg : String} (h : 'B' ∉ msg.data) :
    occursIn "Bearer".data msg.data = false := by
  cases hoc : occursIn "Bearer".data msg.data
  · rfl
  · have hoc2 : occursIn ('B' :: "earer".data) msg.data = true := hoc
    exact absurd (head_mem_of_occursIn hoc2) h

/-- Claim C6: the diagnostics `fetchReviewers` emits are the same whatever
the API key is (the key flows only into the request headers), and none of
them contains the authorization scheme word `"Bearer"` — hence none can
contain the key. -/
theorem claim_C6 (k₁ k₂ u : String) (fail : Bool) (o : Nat → Outcome) :
    (fetchReviewers k₁ u fail o).logs = (fetchReviewers k₂ u fail o).logs ∧
    ∀ m ∈ (fetchReviewers k₁ u fail o).logs,
      occursIn "Bearer".data (logText m).data = false :=
  ⟨fetchLoop_logs_key u fail o k₁ k₂ 3 0,
   fun m hm => not_occursIn_bearer (fetchLoop_logs_no_B k₁ u fail o 3 0 m hm)⟩
